import Mathlib

/-!
Verification of the lemming run orchestration engine.

The repository ships two revisions of the tool layer: `src/lemming/config.py`
holds the older-revision tool definitions (`FormatterOrLinter`, `Formatter.run`,
`Linter.run`, `run_command`, `install`, `assert_dict_keys`, `from_dict`,
`read_config_file`), while `src/lemming/__main__.py` holds the newer-revision
orchestrator (`run_linter`, `linter_first`, `run_formatter`, `formatter`,
`linter_other`, `run`, `Settings.should_run`).  The newer-revision config module
(`Config.fail_fast`, `get_first_linters`, `get_other_linters`,
`Formatter.run_format`, `Formatter.run_check`) is not part of the sources; where
a definition depends on it, the definition is modelled from the specification
and carries a doc comment saying so.

Python strings are modelled as `List Char`; `str.replace` is the leftmost,
non-overlapping, left-to-right replacement of every occurrence, implemented
with an explicit fuel argument (the string length) so it evaluates by `decide`.
Subprocess execution is abstracted by an environment oracle mapping the
rendered command string to the exit status of the child process.
-/

namespace Lemming

/-- Python `str` modelled as a list of characters. -/
abbrev Str := List Char

/-- Python `" ".join(xs)`. -/
def joinSpace : List Str → Str
  | [] => []
  | [s] => s
  | s :: ss => s ++ ' ' :: joinSpace ss

/-- Python `str.strip()`: remove leading and trailing whitespace. -/
def stripL (s : Str) : Str :=
  ((s.dropWhile Char.isWhitespace).reverse.dropWhile Char.isWhitespace).reverse

/-- Auxiliary worker for `replaceL`.  The fuel starts as the length of the
subject string; every step consumes at least one character, so the fuel never
runs out when started at the length. -/
def replaceAux (pat rep : Str) : Nat → Str → Str
  | 0, s => s
  | _ + 1, [] => []
  | fuel + 1, c :: rest =>
    if !pat.isEmpty && pat.isPrefixOf (c :: rest) then
      rep ++ replaceAux pat rep fuel ((c :: rest).drop pat.length)
    else
      c :: replaceAux pat rep fuel rest

/-- Python `s.replace(pat, rep)`: replace every leftmost, non-overlapping
occurrence of `pat` in `s` by `rep`. -/
def replaceL (s pat rep : Str) : Str :=
  replaceAux pat rep s.length s

/-- Does `pat` occur as a contiguous substring of `s`?  (Search of a
non-empty pattern at every suffix.) -/
def containsTok (s pat : Str) : Bool :=
  match s with
  | [] => false
  | _ :: rest => pat.isPrefixOf s || containsTok rest pat

/-- `s` has no opening brace, hence no placeholder can start inside it. -/
abbrev noBrace (s : Str) : Prop := ∀ c ∈ s, c ≠ '{'

/-- The `\x7bpyexe\x7d` placeholder. -/
def pyexeTok : Str := "\x7bpyexe\x7d".data

/-- The `\x7bpackage\x7d` placeholder. -/
def packageTok : Str := "\x7bpackage\x7d".data

/-- The `\x7bargs\x7d` placeholder. -/
def argsTok : Str := "\x7bargs\x7d".data

/-- The `\x7bpath\x7d` placeholder. -/
def pathTok : Str := "\x7bpath\x7d".data

/-- The `\x7balso_install\x7d` placeholder. -/
def alsoTok : Str := "\x7balso_install\x7d".data

/-- The execution environment: the python executable (`sys.executable`) and
an oracle giving the exit status of the child process spawned for a rendered
command string (`subprocess.run(cmd).returncode`). -/
structure Env where
  pyexe : Str
  exec : Str → Int

/-- `config.FormatterOrLinter` (older revision): a single tool definition. -/
structure FormatterOrLinter where
  package : Str
  version : Option Str
  args : Str
  allow_nonzero : Bool
  also_install : List Str
  install_name : Option Str
deriving DecidableEq

/-- `Formatter` subclasses `FormatterOrLinter` adding only `run`. -/
abbrev Formatter := FormatterOrLinter

/-- `Linter` subclasses `FormatterOrLinter` adding only `run`. -/
abbrev Linter := FormatterOrLinter

/-- The placeholder-substitution part of `FormatterOrLinter.run_command`:
strip the template, then replace, in this order, `\x7bpyexe\x7d`,
`\x7bpackage\x7d`, `\x7bargs\x7d`, `\x7bpath\x7d` (by the space-joined paths),
and `\x7balso_install\x7d` (by the space-joined extra packages). -/
def render (env : Env) (t : FormatterOrLinter) (paths_to_check : List Str)
    (cmd : Str) : Str :=
  let c0 := stripL cmd
  let c1 := replaceL c0 pyexeTok env.pyexe
  let c2 := replaceL c1 packageTok t.package
  let c3 := replaceL c2 argsTok t.args
  let paths := joinSpace paths_to_check
  let c4 := replaceL c3 pathTok paths
  let also := joinSpace t.also_install
  replaceL c4 alsoTok also

/-- The command template used by `FormatterOrLinter.install`. -/
def installTemplate : Str :=
  "\x7bpyexe\x7d -m pip install -U \x7bpackage\x7d \x7balso_install\x7d".data

/-- The command template used by `FormatterOrLinter._run`. -/
def runTemplate : Str := "\x7bpyexe\x7d -m \x7bpackage\x7d \x7bargs\x7d".data

/-- The rendered install command (`install` passes an empty path list). -/
def renderedInstall (env : Env) (t : FormatterOrLinter) : Str :=
  render env t [] installTemplate

/-- The rendered tool command as executed by `_run`. -/
def renderedRun (env : Env) (t : FormatterOrLinter) (paths : List Str) : Str :=
  render env t paths runTemplate

/-- `FormatterOrLinter.install`: run the rendered pip command, succeed iff the
exit status is 0. -/
def install (env : Env) (t : FormatterOrLinter) : Bool :=
  env.exec (renderedInstall env t) == 0

/-- Result of one tool execution: the boolean outcome returned to the
orchestrator, the rendered commands actually executed (in order), and the
relevant log events. -/
structure ToolRunResult where
  ok : Bool
  trace : List Str
  installErrorLogged : Bool
  successLogged : Bool
deriving DecidableEq

/-- `config.Formatter.run` (older revision): install (an install failure is
only logged), then run the rendered `\x7bpyexe\x7d -m \x7bpackage\x7d
\x7bargs\x7d` command; log success when the exit status is 0 or
`allow_nonzero` is set, but return `exit_status == 0`. -/
def Formatter.run (env : Env) (t : Formatter) (paths : List Str) :
    ToolRunResult :=
  let iok := install env t
  let cmd := renderedRun env t paths
  let success := env.exec cmd == 0
  { ok := success
    trace := [renderedInstall env t, cmd]
    installErrorLogged := !iok
    successLogged := success || t.allow_nonzero }

/-- `config.Linter.run` (older revision): install (an install failure is only
logged), then run the rendered command; return `exit_status == 0`. -/
def Linter.run (env : Env) (t : Linter) (paths : List Str) : ToolRunResult :=
  let iok := install env t
  let cmd := renderedRun env t paths
  let success := env.exec cmd == 0
  { ok := success
    trace := [renderedInstall env t, cmd]
    installErrorLogged := !iok
    successLogged := success }

/-- `config.assert_dict_keys`: walk the dictionary keys (in iteration order);
an entry outside the allowed list raises `ValueError` (modelled as
`Except.error` carrying the offending key); an allowed key is removed from the
allowed list before the walk continues. -/
def assert_dict_keys (dictKeys : List String) (keys : List String) :
    Except String Unit :=
  match dictKeys with
  | [] => Except.ok ()
  | k :: rest =>
    if k ∈ keys then assert_dict_keys rest (keys.erase k)
    else Except.error k

/-- The allowed keys of one tool entry (`FormatterOrLinter.from_dict`). -/
def allowedToolKeys : List String :=
  ["package", "version", "args", "allow_nonzero", "also_install",
   "install_name"]

/-- The key validation performed by `FormatterOrLinter.from_dict` before the
tool object is constructed. -/
def from_dict_check (dictKeys : List String) : Except String Unit :=
  assert_dict_keys dictKeys allowedToolKeys

/-- `read_config_file` validates every tool entry in order; the first invalid
entry aborts the construction of the `Config`. -/
def check_entries : List (List String) → Except String Unit
  | [] => Except.ok ()
  | e :: rest =>
    match from_dict_check e with
    | Except.ok _ => check_entries rest
    | Except.error k => Except.error k

/-- `config.read_config_file` restricted to its key validation: the top-level
dictionary may hold only `formatters` and `linters`, and every formatter and
linter entry must pass `from_dict_check`; only then is a `Config` produced. -/
def read_config_file (topKeys : List String)
    (formatterEntries linterEntries : List (List String)) :
    Except String Unit :=
  match assert_dict_keys topKeys ["formatters", "linters"] with
  | Except.error k => Except.error k
  | Except.ok _ =>
    match check_entries formatterEntries with
    | Except.error k => Except.error k
    | Except.ok _ => check_entries linterEntries

/-! ## The run orchestrator (`__main__.py`, newer revision)

The orchestrator's control flow (`run_linter`, `linter_first`, `formatter`,
`linter_other`, `run`, `Settings.should_run`) is embedded from
`__main__.py`.  The newer-revision config module it imports is not among the
sources, so the per-tool data it consumes is modelled from the spec: a linter
carries a `name`, a `run_first` flag and the outcome of its `Linter.run`; a
formatter carries a `name` and the outcomes of its `run_format` and
`run_check`.  A raised `typer.Exit(1)` is modelled as `Except.error`; the
value carried by either constructor is the list of names of the tools that
were actually executed, in execution order. -/

/-- Modelled from the spec: the newer-revision `Linter` as consumed by the
orchestrator — `name`, the `run_first` flag, and the outcome of its
`Linter.run` (the missing executor is abstracted as a boolean outcome). -/
structure OLinter where
  name : String
  run_first : Bool
  outcome : Bool
deriving DecidableEq

/-- Modelled from the spec: the newer-revision `Formatter` as consumed by the
orchestrator — `name` and the outcomes of `run_format` and `run_check`. -/
structure OFormatter where
  name : String
  format_outcome : Bool
  check_outcome : Bool
deriving DecidableEq

/-- Modelled from the spec: the newer-revision `Config` with its `fail_fast`
flag (absent from the older-revision `config.py` in the sources). -/
structure OConfig where
  formatters : List OFormatter
  linters : List OLinter
  fail_fast : Bool
deriving DecidableEq

/-- Modelled from the spec: `Config.get_first_linters` — the linters with
`run_first` set, in their original order. -/
def OConfig.get_first_linters (c : OConfig) : List OLinter :=
  c.linters.filter (fun l => l.run_first)

/-- Modelled from the spec: `Config.get_other_linters` — the remaining
linters, in their original order. -/
def OConfig.get_other_linters (c : OConfig) : List OLinter :=
  c.linters.filter (fun l => !l.run_first)

/-- `__main__.Settings`: the configuration and the optional "only run these
tools" restriction. -/
structure OSettings where
  config : OConfig
  only : Option (List String)
deriving DecidableEq

/-- `Settings.should_run`: a falsy `only` (None or the empty list) lets every
tool run; otherwise only tools whose name is listed run. -/
def OSettings.should_run (s : OSettings) (name : String) : Bool :=
  match s.only with
  | none => true
  | some l => if l.isEmpty then true else l.contains name

/-- One scheduled tool execution: the tool's name and the boolean outcome its
run method returns for the current task. -/
structure Job where
  name : String
  ok : Bool
deriving DecidableEq

/-- The job a linter contributes (`run_linter` calls `linter.run`). -/
def jobOfLinter (l : OLinter) : Job :=
  { name := l.name, ok := l.outcome }

/-- The job a formatter contributes: `run_formatter` calls `run_format` for
the format task and `run_check` for the check task. -/
def jobOfFormatter (format_ : Bool) (f : OFormatter) : Job :=
  { name := f.name
    ok := if format_ then f.format_outcome else f.check_outcome }

/-- The shared loop of `linter_first`, `formatter` and `linter_other`: walk
the phase's tools in order, skip those `should_run` rejects, run each other
tool once; a failure latches the phase result to `False`, and additionally
raises `typer.Exit(1)` (the `Except.error` branch) when `fail_fast` is set.
The returned list is the trace of executed tool names. -/
def runPhase (fail_fast : Bool) (should : String → Bool) :
    List Job → Except (List String) (List String × Bool)
  | [] => Except.ok ([], true)
  | j :: rest =>
    if should j.name then
      if j.ok then
        match runPhase fail_fast should rest with
        | Except.ok (tr, rv) => Except.ok (j.name :: tr, rv)
        | Except.error tr => Except.error (j.name :: tr)
      else if fail_fast then Except.error [j.name]
      else
        match runPhase fail_fast should rest with
        | Except.ok (tr, _) => Except.ok (j.name :: tr, false)
        | Except.error tr => Except.error (j.name :: tr)
    else runPhase fail_fast should rest

/-- Overall outcome of `__main__.run`: either the run was aborted by a
`typer.Exit(1)` raised inside a phase (fail-fast), or all three phases
completed and the final success flag decides between the summary error (again
`typer.Exit(1)`, i.e. a failed run) and the success log.  Both constructors
carry the trace of executed tool names. -/
inductive RunOutcome
  | aborted (trace : List String)
  | finished (trace : List String) (ok : Bool)
deriving DecidableEq

/-- `__main__.run`: first linters, then formatters, then the other linters;
a phase returning `False` latches the overall success to `False`; a raised
`typer.Exit` aborts immediately. -/
def run (s : OSettings) (format_ : Bool) : RunOutcome :=
  let ff := s.config.fail_fast
  match runPhase ff s.should_run
      (s.config.get_first_linters.map jobOfLinter) with
  | Except.error tr => RunOutcome.aborted tr
  | Except.ok (tr1, ok1) =>
    match runPhase ff s.should_run
        (s.config.formatters.map (jobOfFormatter format_)) with
    | Except.error tr => RunOutcome.aborted (tr1 ++ tr)
    | Except.ok (tr2, ok2) =>
      match runPhase ff s.should_run
          (s.config.get_other_linters.map jobOfLinter) with
      | Except.error tr => RunOutcome.aborted (tr1 ++ tr2 ++ tr)
      | Except.ok (tr3, ok3) =>
        RunOutcome.finished (tr1 ++ tr2 ++ tr3) (ok1 && ok2 && ok3)

/-- All jobs of a run in schedule order: first linters, formatters (for the
given task), other linters. -/
def jobsAll (s : OSettings) (format_ : Bool) : List Job :=
  s.config.get_first_linters.map jobOfLinter
    ++ s.config.formatters.map (jobOfFormatter format_)
    ++ s.config.get_other_linters.map jobOfLinter

/-- The jobs that are actually scheduled once the `only` restriction is
applied, in schedule order. -/
def plannedJobs (s : OSettings) (format_ : Bool) : List Job :=
  (jobsAll s format_).filter (fun j => s.should_run j.name)

/-! ## The newer-revision formatter check flow (modelled from the spec) -/

/-- Modelled from the spec: the newer-revision `Formatter` fields relevant to
`run_check` — the optional `check_command` (absent means the check is a no-op
success). -/
structure SpecFormatter where
  packages : List String
  format_command : String
  check_command : Option String
  allow_nonzero_on_format : Bool
deriving DecidableEq

/-- Environment for the modelled check flow: the outcome of the §4.3 pip
install for a tool, and the exit-0 outcome of executing a command template. -/
structure SpecEnv where
  installOk : SpecFormatter → Bool
  runOk : String → Bool

/-- Observable events of one `run_check` execution. -/
inductive CheckEvent
  | installed
  | ran (cmd : String)
  | warnedMissingCheck
deriving DecidableEq

/-- Outcome of the modelled `run_check`: the boolean result and the events in
order. -/
structure CheckResult where
  ok : Bool
  events : List CheckEvent
deriving DecidableEq

/-- Modelled from the spec: `Formatter.run_check` (§4.4), absent from the
older-revision `config.py` in the sources.  If `check_command` is absent,
short-circuit to success with a warning log and without invoking the
installer; otherwise install (failure means a failed check without running the
command), then run the check command, succeeding iff it exits 0. -/
def SpecFormatter.run_check (env : SpecEnv) (f : SpecFormatter) : CheckResult :=
  match f.check_command with
  | none => { ok := true, events := [CheckEvent.warnedMissingCheck] }
  | some cc =>
    if env.installOk f then
      { ok := env.runOk cc
        events := [CheckEvent.installed, CheckEvent.ran cc] }
    else
      { ok := false, events := [CheckEvent.installed] }

/-! ## Concrete inputs used by witnesses and counterexamples -/

/-- The fixed segment " -m " of the run template. -/
def mSeg : Str := " -m ".data

/-- A single-space segment. -/
def spSeg : Str := [' ']

/-- Environment for C1: the rendered tool command (`py -m black `, the
trailing space coming from the empty `args`) exits with status 2; every other
command (in particular the pip install) exits 0. -/
def envC1 : Env :=
  { pyexe := "py".data
    exec := fun c => if c = "py -m black ".data then 2 else 0 }

/-- Formatter for C1: `allow_nonzero` is set. -/
def fmtC1 : Formatter :=
  { package := "black".data, version := none, args := [],
    allow_nonzero := true, also_install := [], install_name := none }

/-- Environment for C3: the rendered pip install command exits 1, the tool
command itself exits 0. -/
def envC3 : Env :=
  { pyexe := "py".data
    exec := fun c => if c = "py -m pip install -U black ".data then 1 else 0 }

/-- Formatter for C3. -/
def fmtC3 : Formatter :=
  { package := "black".data, version := none, args := [],
    allow_nonzero := false, also_install := [], install_name := none }

/-- Environment for C4: the rendered pip install command exits 1, the lint
command itself exits 0. -/
def envC4 : Env :=
  { pyexe := "py".data
    exec := fun c => if c = "py -m pip install -U flake8 ".data then 1 else 0 }

/-- Linter for C4. -/
def lntC4 : Linter :=
  { package := "flake8".data, version := none, args := [],
    allow_nonzero := false, also_install := [], install_name := none }

/-- Environment for C5 with the interpreter path of the claim's example. -/
def envC5 : Env := { pyexe := "/usr/bin/py".data, exec := fun _ => 0 }

/-- Tool for C5 with the package of the claim's example. -/
def toolC5 : FormatterOrLinter :=
  { package := "black".data, version := none, args := [],
    allow_nonzero := false, also_install := [], install_name := none }

/-- Environment for the C10 witness. -/
def envC10 : Env := { pyexe := "/py".data, exec := fun _ => 0 }

/-- Tool for the C10 witness: its `args` holds a literal `\x7bpath\x7d`. -/
def toolC10 : FormatterOrLinter :=
  { package := "flake8".data, version := none,
    args := "x \x7bpath\x7d y".data,
    allow_nonzero := false, also_install := [], install_name := none }

/-- Settings for the C2 witness: one first linter that succeeds, one
formatter that fails the format task, one other linter; fail-fast on. -/
def settingsC2 : OSettings :=
  { config :=
      { formatters :=
          [{ name := "f1", format_outcome := false, check_outcome := true }]
        linters :=
          [{ name := "l1", run_first := true, outcome := true },
           { name := "l2", run_first := false, outcome := true }]
        fail_fast := true }
    only := none }

/-- Settings for the C6 witness: same tools as C2 but fail-fast off. -/
def settingsC6 : OSettings :=
  { config :=
      { formatters :=
          [{ name := "f1", format_outcome := false, check_outcome := true }]
        linters :=
          [{ name := "l1", run_first := true, outcome := true },
           { name := "l2", run_first := false, outcome := true }]
        fail_fast := false }
    only := none }

/-- Adversarial check-flow environment for the C8 witness: every install and
every command fails, so any success can only come from the short-circuit. -/
def specEnvC8 : SpecEnv :=
  { installOk := fun _ => false, runOk := fun _ => false }

/-- Formatter without a `check_command` for the C8 witness. -/
def specFmtC8 : SpecFormatter :=
  { packages := ["black"], format_command := "fmt", check_command := none,
    allow_nonzero_on_format := false }

/-! ## Lemmas about the replacement engine -/

theorem replaceAux_nil (pat rep : Str) (fuel : Nat) :
    replaceAux pat rep fuel [] = [] := by
  cases fuel <;> rfl

theorem replaceAux_congr (pat rep : Str) :
    ∀ f1 f2 : Nat, ∀ s : Str, s.length ≤ f1 → s.length ≤ f2 →
      replaceAux pat rep f1 s = replaceAux pat rep f2 s := by
  intro f1
  induction f1 with
  | zero =>
    intro f2 s h1 _
    have hs : s = [] := List.eq_nil_of_length_eq_zero (Nat.le_zero.mp h1)
    subst hs
    rw [replaceAux_nil, replaceAux_nil]
  | succ f1 ih =>
    intro f2 s h1 h2
    cases s with
    | nil => rw [replaceAux_nil, replaceAux_nil]
    | cons c rest =>
      cases f2 with
      | zero => simp at h2
      | succ f2 =>
        show (if !pat.isEmpty && pat.isPrefixOf (c :: rest) then
            rep ++ replaceAux pat rep f1 ((c :: rest).drop pat.length)
          else c :: replaceAux pat rep f1 rest) =
          (if !pat.isEmpty && pat.isPrefixOf (c :: rest) then
            rep ++ replaceAux pat rep f2 ((c :: rest).drop pat.length)
          else c :: replaceAux pat rep f2 rest)
        by_cases h : !pat.isEmpty && pat.isPrefixOf (c :: rest)
        · have hne : 1 ≤ pat.length := by
            cases pat with
            | nil => simp at h
            | cons p pt => simp
          have hdrop : ((c :: rest).drop pat.length).length ≤ f1 := by
            rw [List.length_drop]
            simp only [List.length_cons] at h1 ⊢
            omega
          have hdrop2 : ((c :: rest).drop pat.length).length ≤ f2 := by
            rw [List.length_drop]
            simp only [List.length_cons] at h2 ⊢
            omega
          rw [if_pos h, if_pos h, ih f2 _ hdrop hdrop2]
        · have hr1 : rest.length ≤ f1 := by
            simp only [List.length_cons] at h1; omega
          have hr2 : rest.length ≤ f2 := by
            simp only [List.length_cons] at h2; omega
          rw [if_neg h, if_neg h, ih f2 rest hr1 hr2]

theorem replaceL_nil (pat rep : Str) : replaceL [] pat rep = [] := rfl

theorem replaceL_cons_skip (p : Char) (pt rep : Str) (c : Char) (s : Str)
    (hc : c ≠ p) : replaceL (c :: s) (p :: pt) rep =
      c :: replaceL s (p :: pt) rep := by
  have hpre : (p :: pt).isPrefixOf (c :: s) = false := by
    rw [List.isPrefixOf_cons₂]
    have : (p == c) = false := by
      simp only [beq_eq_false_iff_ne]
      exact fun h => hc h.symm
    simp [this]
  show (if !(p :: pt).isEmpty && (p :: pt).isPrefixOf (c :: s) then
      rep ++ replaceAux (p :: pt) rep s.length ((c :: s).drop (p :: pt).length)
    else c :: replaceAux (p :: pt) rep s.length s) =
    c :: replaceL s (p :: pt) rep
  rw [hpre]
  simp [replaceL]

theorem replaceL_append_skip (p : Char) (pt rep : Str) (a s : Str)
    (h : ∀ c ∈ a, c ≠ p) :
    replaceL (a ++ s) (p :: pt) rep = a ++ replaceL s (p :: pt) rep := by
  induction a with
  | nil => simp
  | cons c a ih =>
    have hc : c ≠ p := h c (List.mem_cons_self c a)
    have ha : ∀ x ∈ a, x ≠ p := fun x hx => h x (List.mem_cons_of_mem c hx)
    rw [List.cons_append, replaceL_cons_skip p pt rep c (a ++ s) hc, ih ha,
      List.cons_append]

theorem replaceL_self_of_all_ne (p : Char) (pt rep : Str) (s : Str)
    (h : ∀ c ∈ s, c ≠ p) : replaceL s (p :: pt) rep = s := by
  have := replaceL_append_skip p pt rep s [] h
  simpa [replaceL_nil] using this

theorem isPrefixOf_append_self (p s : Str) : p.isPrefixOf (p ++ s) = true := by
  induction p with
  | nil => simp
  | cons a as ih => rw [List.cons_append, List.isPrefixOf_cons₂]; simp [ih]

theorem replaceL_head_match (pat rep s : Str) (h : pat ≠ []) :
    replaceL (pat ++ s) pat rep = rep ++ replaceL s pat rep := by
  cases pat with
  | nil => exact absurd rfl h
  | cons p pt =>
    show replaceAux (p :: pt) rep ((p :: pt) ++ s).length ((p :: pt) ++ s) =
      rep ++ replaceL s (p :: pt) rep
    rw [List.cons_append]
    have hpre : (p :: pt).isPrefixOf (p :: (pt ++ s)) = true := by
      have := isPrefixOf_append_self (p :: pt) s
      rwa [List.cons_append] at this
    show (if !(p :: pt).isEmpty && (p :: pt).isPrefixOf (p :: (pt ++ s)) then
        rep ++ replaceAux (p :: pt) rep (pt ++ s).length
          ((p :: (pt ++ s)).drop (p :: pt).length)
      else p :: replaceAux (p :: pt) rep (pt ++ s).length (pt ++ s)) =
      rep ++ replaceL s (p :: pt) rep
    rw [hpre]
    simp only [List.isEmpty_cons, Bool.not_false, Bool.true_and, if_true]
    have hdrop : (p :: (pt ++ s)).drop (p :: pt).length = s := by
      have := List.drop_left (p :: pt) s
      rwa [List.cons_append] at this
    rw [hdrop]
    have : replaceAux (p :: pt) rep (pt ++ s).length s =
        replaceAux (p :: pt) rep s.length s := by
      apply replaceAux_congr
      · rw [List.length_append]; omega
      · exact Nat.le_refl _
    rw [this]
    rfl

theorem replaceL_pat_self (pat rep : Str) (h : pat ≠ []) :
    replaceL pat pat rep = rep := by
  have := replaceL_head_match pat rep [] h
  simpa [replaceL_nil] using this

theorem containsTok_false_replaceL (s pat rep : Str)
    (h : containsTok s pat = false) : replaceL s pat rep = s := by
  induction s with
  | nil => rfl
  | cons c rest ih =>
    have hc : pat.isPrefixOf (c :: rest) = false ∧
        containsTok rest pat = false := by
      have : (pat.isPrefixOf (c :: rest) || containsTok rest pat) = false := h
      simpa using this
    show (if !pat.isEmpty && pat.isPrefixOf (c :: rest) then
        rep ++ replaceAux pat rep rest.length ((c :: rest).drop pat.length)
      else c :: replaceAux pat rep rest.length rest) = c :: rest
    rw [hc.1]
    have hcond : (!pat.isEmpty && false) = false := Bool.and_false _
    rw [hcond, if_neg Bool.false_ne_true]
    exact congrArg (List.cons c) (ih hc.2)

theorem noBrace_append {a b : Str} (ha : noBrace a) (hb : noBrace b) :
    noBrace (a ++ b) := by
  intro c hc
  rcases List.mem_append.mp hc with h | h
  · exact ha c h
  · exact hb c h

theorem noBrace_joinSpace {ps : List Str} (h : ∀ p ∈ ps, noBrace p) :
    noBrace (joinSpace ps) := by
  induction ps with
  | nil => intro c hc; cases hc
  | cons s ss ih =>
    cases ss with
    | nil => exact fun c hc => h s (List.mem_cons_self s []) c hc
    | cons s2 ss2 =>
      show noBrace (s ++ ' ' :: joinSpace (s2 :: ss2))
      intro c hc
      rcases List.mem_append.mp hc with hm | hm
      · exact h s (List.mem_cons_self _ _) c hm
      · rcases List.mem_cons.mp hm with hm | hm
        · subst hm; decide
        · exact ih (fun p hp => h p (List.mem_cons_of_mem s hp)) c hm

/-- Claim C10: `run_command` substitutes placeholders in the fixed order
`\x7bpyexe\x7d`, `\x7bpackage\x7d`, `\x7bargs\x7d`, `\x7bpath\x7d`,
`\x7balso_install\x7d` on the stripped template; consequently a literal
`\x7bpath\x7d` inside the tool's `args` is itself replaced by the
space-joined target paths (an empty path list yields the empty string, the
`ps = []` instance of this statement), as witnessed on the command rendered
by `_run`. -/
theorem claimC10_args_path_substitution (env : Env) (t : FormatterOrLinter)
    (ps : List Str) (a b : Str)
    (hargs : t.args = a ++ pathTok ++ b)
    (hpy : noBrace env.pyexe) (hpkg : noBrace t.package)
    (ha : noBrace a) (hb : noBrace b) (hps : ∀ p ∈ ps, noBrace p) :
    renderedRun env t ps =
      env.pyexe ++ mSeg ++ t.package ++ spSeg ++ a ++ joinSpace ps ++ b := by
  simp only [renderedRun, render]
  rw [show stripL runTemplate =
    pyexeTok ++ " -m \x7bpackage\x7d \x7bargs\x7d".data from by decide]
  rw [replaceL_head_match pyexeTok env.pyexe
    (" -m \x7bpackage\x7d \x7bargs\x7d".data) (by decide)]
  rw [containsTok_false_replaceL (" -m \x7bpackage\x7d \x7bargs\x7d".data)
    pyexeTok env.pyexe (by decide)]
  rw [show (" -m \x7bpackage\x7d \x7bargs\x7d".data : Str) =
    mSeg ++ (packageTok ++ " \x7bargs\x7d".data) from by decide]
  rw [show packageTok = '{' :: "package\x7d".data from by decide]
  rw [replaceL_append_skip '{' "package\x7d".data t.package env.pyexe _ hpy]
  rw [replaceL_append_skip '{' "package\x7d".data t.package mSeg _ (by decide)]
  rw [replaceL_head_match ('{' :: "package\x7d".data) t.package
    (" \x7bargs\x7d".data) (by decide)]
  rw [containsTok_false_replaceL (" \x7bargs\x7d".data)
    ('{' :: "package\x7d".data) t.package (by decide)]
  rw [show (" \x7bargs\x7d".data : Str) = spSeg ++ argsTok from by decide]
  rw [show argsTok = '{' :: "args\x7d".data from by decide]
  rw [replaceL_append_skip '{' "args\x7d".data t.args env.pyexe _ hpy]
  rw [replaceL_append_skip '{' "args\x7d".data t.args mSeg _ (by decide)]
  rw [replaceL_append_skip '{' "args\x7d".data t.args t.package _ hpkg]
  rw [replaceL_append_skip '{' "args\x7d".data t.args spSeg _ (by decide)]
  rw [replaceL_pat_self ('{' :: "args\x7d".data) t.args (by decide)]
  rw [hargs, List.append_assoc a pathTok b]
  rw [show pathTok = '{' :: "path\x7d".data from by decide]
  rw [replaceL_append_skip '{' "path\x7d".data (joinSpace ps) env.pyexe _ hpy]
  rw [replaceL_append_skip '{' "path\x7d".data (joinSpace ps) mSeg
    _ (by decide)]
  rw [replaceL_append_skip '{' "path\x7d".data (joinSpace ps) t.package
    _ hpkg]
  rw [replaceL_append_skip '{' "path\x7d".data (joinSpace ps) spSeg
    _ (by decide)]
  rw [replaceL_append_skip '{' "path\x7d".data (joinSpace ps) a _ ha]
  rw [replaceL_head_match ('{' :: "path\x7d".data) (joinSpace ps) b
    (by decide)]
  rw [replaceL_self_of_all_ne '{' "path\x7d".data (joinSpace ps) b hb]
  rw [show alsoTok = '{' :: "also_install\x7d".data from by decide]
  rw [replaceL_self_of_all_ne '{' "also_install\x7d".data
    (joinSpace t.also_install)
    (env.pyexe ++ (mSeg ++ (t.package ++ (spSeg ++
      (a ++ (joinSpace ps ++ b))))))
    (noBrace_append hpy (noBrace_append (by decide) (noBrace_append hpkg
      (noBrace_append (by decide) (noBrace_append ha
        (noBrace_append (noBrace_joinSpace hps) hb))))))]
  simp [List.append_assoc]

/-- Witness for C10 at a concrete tool whose `args` holds a literal
`\x7bpath\x7d`. -/
theorem claimC10_witness :
    renderedRun envC10 toolC10 ["m.py".data] = "/py -m flake8 x m.py y".data
    := by
  rw [claimC10_args_path_substitution envC10 toolC10 ["m.py".data]
    ("x ".data) (" y".data) (by decide) (by decide) (by decide) (by decide)
    (by decide) (by decide)]
  decide

/-- Claim C1 (code bug): at a formatter with `allow_nonzero = true` whose
rendered format command exits 2, `Formatter.run` logs "Successfully ran
formatter" (`successLogged`) yet returns `False`: the returned outcome is
`exit_status == 0` alone, `allow_nonzero` only affects the log, contradicting
the claim (and the code's own docstring and success log). -/
theorem claimC1_code_behavior :
    fmtC1.allow_nonzero = true
    ∧ envC1.exec (renderedRun envC1 fmtC1 []) = 2
    ∧ (Formatter.run envC1 fmtC1 []).ok = false
    ∧ (Formatter.run envC1 fmtC1 []).successLogged = true := by
  refine ⟨rfl, by decide, by decide, by decide⟩

/-- Counterexample to C3: a formatter whose pip install exits 1 while the
format command exits 0; `Formatter.run` nevertheless executes the format
command (it is in the trace) and returns `True`, contradicting "transitions
directly to Failed" and "the format command is not executed at all". -/
theorem claimC3_counterexample :
    install envC3 fmtC3 = false
    ∧ (Formatter.run envC3 fmtC3 []).ok = true
    ∧ renderedRun envC3 fmtC3 [] ∈ (Formatter.run envC3 fmtC3 []).trace := by
  refine ⟨by decide, by decide, by decide⟩

/-- Claim C3 as amended: when the install fails, `Formatter.run` logs the
install error but still executes the format command, and the outcome is
decided solely by the format command's exit status. -/
theorem claimC3_amended_install_failure_tolerated (env : Env) (t : Formatter)
    (paths : List Str) (h : install env t = false) :
    (Formatter.run env t paths).installErrorLogged = true
    ∧ renderedRun env t paths ∈ (Formatter.run env t paths).trace
    ∧ (Formatter.run env t paths).ok
        = (env.exec (renderedRun env t paths) == 0) := by
  refine ⟨?_, ?_, rfl⟩
  · simp [Formatter.run, h]
  · simp [Formatter.run]

/-- Witness for the amended C3: the counterexample scenario, where the
install error is logged, the format command runs, and the outcome follows the
format command's exit status. -/
theorem claimC3_witness :
    (Formatter.run envC3 fmtC3 []).installErrorLogged = true
    ∧ renderedRun envC3 fmtC3 [] ∈ (Formatter.run envC3 fmtC3 []).trace
    ∧ (Formatter.run envC3 fmtC3 []).ok
        = (envC3.exec (renderedRun envC3 fmtC3 []) == 0) :=
  claimC3_amended_install_failure_tolerated envC3 fmtC3 [] (by decide)

/-- Claim C4: when the install fails, `Linter.run` logs the error but still
executes the lint command, and the outcome is `Succeeded` iff the lint
command exits 0, regardless of the install failure. -/
theorem claimC4_linter_tolerates_install_failure (env : Env) (t : Linter)
    (paths : List Str) (h : install env t = false) :
    (Linter.run env t paths).installErrorLogged = true
    ∧ renderedRun env t paths ∈ (Linter.run env t paths).trace
    ∧ ((Linter.run env t paths).ok = true
        ↔ env.exec (renderedRun env t paths) = 0) := by
  refine ⟨?_, ?_, ?_⟩
  · simp [Linter.run, h]
  · simp [Linter.run]
  · simp [Linter.run]

/-- Witness for C4: a linter whose pip install exits 1 while the lint command
exits 0; the install error is logged, the lint command runs, and the overall
outcome is `Succeeded`. -/
theorem claimC4_witness :
    (Linter.run envC4 lntC4 []).installErrorLogged = true
    ∧ renderedRun envC4 lntC4 [] ∈ (Linter.run envC4 lntC4 []).trace
    ∧ ((Linter.run envC4 lntC4 []).ok = true
        ↔ envC4.exec (renderedRun envC4 lntC4 []) = 0) :=
  claimC4_linter_tolerates_install_failure envC4 lntC4 [] (by decide)

/-- Counterexample to C5: rendering the claim's template
`\x7bpyexe\x7d -m \x7bpackages\x7d \x7bpath\x7d` does not produce
`/usr/bin/py -m black a.py b.py`, because `\x7bpackages\x7d` is not a
recognized placeholder of this renderer. -/
theorem claimC5_counterexample :
    render envC5 toolC5 ["a.py".data, "b.py".data]
        ("\x7bpyexe\x7d -m \x7bpackages\x7d \x7bpath\x7d".data)
      ≠ "/usr/bin/py -m black a.py b.py".data := by
  decide

/-- Claim C5 as amended: the renderer recognizes `\x7bpyexe\x7d`,
`\x7bpackage\x7d` (the tool's single package name), `\x7bargs\x7d`,
`\x7bpath\x7d` and `\x7balso_install\x7d`; `\x7bpackages\x7d` is left
verbatim.  Rendering `\x7bpyexe\x7d -m \x7bpackage\x7d \x7bpath\x7d` with
pyexe `/usr/bin/py`, package `black` and paths `a.py b.py` produces
`/usr/bin/py -m black a.py b.py`, while the claim's original template keeps
`\x7bpackages\x7d` verbatim. -/
theorem claimC5_amended_render :
    render envC5 toolC5 ["a.py".data, "b.py".data]
        ("\x7bpyexe\x7d -m \x7bpackage\x7d \x7bpath\x7d".data)
      = "/usr/bin/py -m black a.py b.py".data
    ∧ render envC5 toolC5 ["a.py".data, "b.py".data]
        ("\x7bpyexe\x7d -m \x7bpackages\x7d \x7bpath\x7d".data)
      = "/usr/bin/py -m \x7bpackages\x7d a.py b.py".data := by
  refine ⟨by decide, by decide⟩

/-! ## Lemmas about the orchestrator -/

theorem runPhase_append (ff : Bool) (P : String → Bool) (xs ys : List Job) :
    runPhase ff P (xs ++ ys) =
      match runPhase ff P xs with
      | Except.error tr => Except.error tr
      | Except.ok (tr, rv) =>
        match runPhase ff P ys with
        | Except.error tr2 => Except.error (tr ++ tr2)
        | Except.ok (tr2, rv2) => Except.ok (tr ++ tr2, rv && rv2) := by
  induction xs with
  | nil =>
    cases h : runPhase ff P ys with
    | ok v =>
      cases v with
      | mk tr2 rv2 => simp [runPhase, h]
    | error tr => simp [runPhase, h]
  | cons j rest ih =>
    simp only [List.cons_append, runPhase, ih]
    cases h1 : runPhase ff P rest with
    | error tr =>
      cases h2 : runPhase ff P ys with
      | error tr2 =>
        by_cases hs : P j.name = true <;> by_cases hok : j.ok = true <;>
          by_cases hff : ff = true <;> simp_all
      | ok v2 =>
        cases v2 with
        | mk tr2 rv2 =>
          by_cases hs : P j.name = true <;> by_cases hok : j.ok = true <;>
            by_cases hff : ff = true <;> simp_all
    | ok v =>
      cases v with
      | mk tr rv =>
        cases h2 : runPhase ff P ys with
        | error tr2 =>
          by_cases hs : P j.name = true <;> by_cases hok : j.ok = true <;>
            by_cases hff : ff = true <;> simp_all
        | ok v2 =>
          cases v2 with
          | mk tr2 rv2 =>
            by_cases hs : P j.name = true <;> by_cases hok : j.ok = true <;>
              by_cases hff : ff = true <;> simp_all

theorem runPhase_all_ok (P : String → Bool) (js : List Job)
    (h : ∀ u ∈ js.filter (fun j => P j.name), u.ok = true) :
    runPhase true P js =
      Except.ok ((js.filter (fun j => P j.name)).map Job.name, true) := by
  induction js with
  | nil => rfl
  | cons j rest ih =>
    by_cases hs : P j.name = true
    · have hfil : List.filter (fun j => P j.name) (j :: rest)
          = j :: List.filter (fun j => P j.name) rest :=
        List.filter_cons_of_pos (by simpa using hs)
      have hj : j.ok = true :=
        h j (by rw [hfil]; exact List.mem_cons_self _ _)
      have hrest : ∀ u ∈ rest.filter (fun j => P j.name), u.ok = true :=
        fun u hu => h u (by rw [hfil]; exact List.mem_cons_of_mem j hu)
      rw [hfil]
      simp [runPhase, hs, hj, ih hrest]
    · have hs2 : P j.name = false := by simpa using hs
      have hfil : List.filter (fun j => P j.name) (j :: rest)
          = List.filter (fun j => P j.name) rest :=
        List.filter_cons_of_neg (by simp [hs2])
      have hrest : ∀ u ∈ rest.filter (fun j => P j.name), u.ok = true :=
        fun u hu => h u (by rw [hfil]; exact hu)
      rw [hfil]
      simp [runPhase, hs2, ih hrest]

theorem runPhase_abort (P : String → Bool) (js : List Job)
    (pre : List Job) (j : Job) (post : List Job)
    (hsplit : js.filter (fun u => P u.name) = pre ++ j :: post)
    (hpre : ∀ u ∈ pre, u.ok = true) (hj : j.ok = false) :
    runPhase true P js = Except.error (pre.map Job.name ++ [j.name]) := by
  induction js generalizing pre with
  | nil =>
    rw [List.filter_nil] at hsplit
    cases pre <;> simp at hsplit
  | cons x rest ih =>
    by_cases hx : P x.name = true
    · have hfil : List.filter (fun u => P u.name) (x :: rest)
          = x :: List.filter (fun u => P u.name) rest :=
        List.filter_cons_of_pos (by simpa using hx)
      rw [hfil] at hsplit
      cases pre with
      | nil =>
        rw [List.nil_append] at hsplit
        have hxj : x = j := (List.cons_eq_cons.mp hsplit).1
        subst hxj
        simp [runPhase, hx, hj]
      | cons p pre2 =>
        rw [List.cons_append] at hsplit
        have hxp : x = p := (List.cons_eq_cons.mp hsplit).1
        have hrest : rest.filter (fun u => P u.name) = pre2 ++ j :: post :=
          (List.cons_eq_cons.mp hsplit).2
        have hxok : x.ok = true := by
          rw [hxp]
          exact hpre p (List.mem_cons_self p pre2)
        have hpre2 : ∀ u ∈ pre2, u.ok = true :=
          fun u hu => hpre u (List.mem_cons_of_mem p hu)
        subst hxp
        simp [runPhase, hx, hxok, ih pre2 hrest hpre2]
    · have hx2 : P x.name = false := by simpa using hx
      have hfil : List.filter (fun u => P u.name) (x :: rest)
          = List.filter (fun u => P u.name) rest :=
        List.filter_cons_of_neg (by simp [hx2])
      rw [hfil] at hsplit
      simp only [runPhase, hx2, Bool.false_eq_true, if_false]
      exact ih pre hsplit hpre

theorem runPhase_no_ff (P : String → Bool) (js : List Job) :
    runPhase false P js =
      Except.ok ((js.filter (fun j => P j.name)).map Job.name,
        (js.filter (fun j => P j.name)).all Job.ok) := by
  induction js with
  | nil => rfl
  | cons j rest ih =>
    by_cases hs : P j.name = true
    · have hfil : List.filter (fun j => P j.name) (j :: rest)
          = j :: List.filter (fun j => P j.name) rest :=
        List.filter_cons_of_pos (by simpa using hs)
      rw [hfil]
      by_cases hok : j.ok = true
      · simp [runPhase, hs, hok, ih]
      · have hok2 : j.ok = false := by simpa using hok
        simp [runPhase, hs, hok2, ih]
    · have hs2 : P j.name = false := by simpa using hs
      have hfil : List.filter (fun j => P j.name) (j :: rest)
          = List.filter (fun j => P j.name) rest :=
        List.filter_cons_of_neg (by simp [hs2])
      rw [hfil]
      simp [runPhase, hs2, ih]

theorem run_eq_runPhase (s : OSettings) (format_ : Bool) :
    run s format_ =
      match runPhase s.config.fail_fast s.should_run (jobsAll s format_) with
      | Except.error tr => RunOutcome.aborted tr
      | Except.ok (tr, rv) => RunOutcome.finished tr rv := by
  unfold run jobsAll
  rw [runPhase_append, runPhase_append]
  cases h1 : runPhase s.config.fail_fast s.should_run
      (s.config.get_first_linters.map jobOfLinter) with
  | error tr => simp [h1]
  | ok v1 =>
    cases v1 with
    | mk tr1 rv1 =>
      cases h2 : runPhase s.config.fail_fast s.should_run
          (s.config.formatters.map (jobOfFormatter format_)) with
      | error tr => simp [h1, h2]
      | ok v2 =>
        cases v2 with
        | mk tr2 rv2 =>
          cases h3 : runPhase s.config.fail_fast s.should_run
              (s.config.get_other_linters.map jobOfLinter) with
          | error tr => simp [h1, h2, h3, List.append_assoc]
          | ok v3 =>
            cases v3 with
            | mk tr3 rv3 =>
              simp [h1, h2, h3, List.append_assoc, Bool.and_assoc]

/-- Claim C2: with `fail_fast = true`, if, among the scheduled tools of the
run (first linters, then formatters, then other linters, after the `only`
filter), every tool before some tool `j` succeeds and `j` fails, then the run
aborts (the `typer.Exit(1)` of `run_linter`/`run_formatter`, an overall
Failed result) and the executed-tool trace is exactly the tools up to and
including `j`: no tool after the failing one, in its phase or any later
phase, is ever executed. -/
theorem claimC2_fail_fast_abort (s : OSettings) (format_ : Bool)
    (pre : List Job) (j : Job) (post : List Job)
    (hff : s.config.fail_fast = true)
    (hplan : plannedJobs s format_ = pre ++ j :: post)
    (hpre : ∀ u ∈ pre, u.ok = true)
    (hj : j.ok = false) :
    run s format_ = RunOutcome.aborted (pre.map Job.name ++ [j.name]) := by
  rw [run_eq_runPhase, hff]
  rw [runPhase_abort s.should_run (jobsAll s format_) pre j post hplan
    hpre hj]

/-- Witness for C2: first linter succeeds, the formatter fails the format
task, so the run aborts with trace `l1, f1` and the other linter `l2` never
runs. -/
theorem claimC2_witness :
    run settingsC2 true = RunOutcome.aborted ["l1", "f1"] := by
  have h := claimC2_fail_fast_abort settingsC2 true
    [{ name := "l1", ok := true }] { name := "f1", ok := false }
    [{ name := "l2", ok := true }] rfl (by decide) (by decide) rfl
  simpa using h

/-- Claim C6: with `fail_fast = false` (and no `only` restriction), the run
never aborts: every scheduled tool of every phase executes exactly once, in
order, and the overall result is Failed (the summary `typer.Exit(1)`) iff at
least one tool failed — the final flag is the conjunction of all tool
outcomes. -/
theorem claimC6_collect_all (s : OSettings) (format_ : Bool)
    (hff : s.config.fail_fast = false) (honly : s.only = none) :
    run s format_ = RunOutcome.finished ((jobsAll s format_).map Job.name)
      ((jobsAll s format_).all Job.ok) := by
  rw [run_eq_runPhase, hff, runPhase_no_ff]
  have hP : ∀ u ∈ jobsAll s format_, s.should_run u.name = true := by
    intro u _
    simp [OSettings.should_run, honly]
  rw [List.filter_eq_self.mpr hP]

/-- Witness for C6: same tools as the C2 witness but with fail-fast off: all
three tools run (trace `l1, f1, l2`) and the overall result is Failed. -/
theorem claimC6_witness :
    run settingsC6 true = RunOutcome.finished ["l1", "f1", "l2"] false := by
  rw [claimC6_collect_all settingsC6 true rfl rfl]
  decide

/-- Claim C7: the first-linters group and the other-linters group form a
stable partition of the configured linters by `run_first`: together they are
a permutation of the linter list, each group is a sublist (preserving the
original relative order), the first group holds exactly the linters with
`run_first` set and the other group exactly the complement. -/
theorem claimC7_stable_partition (c : OConfig) :
    (c.get_first_linters ++ c.get_other_linters).Perm c.linters
    ∧ List.Sublist c.get_first_linters c.linters
    ∧ List.Sublist c.get_other_linters c.linters
    ∧ (∀ l, l ∈ c.get_first_linters ↔ l ∈ c.linters ∧ l.run_first = true)
    ∧ (∀ l, l ∈ c.get_other_linters ↔ l ∈ c.linters ∧ l.run_first = false)
    := by
  refine ⟨List.filter_append_perm _ _, List.filter_sublist _,
    List.filter_sublist _, ?_, ?_⟩
  · intro l
    simp [OConfig.get_first_linters, List.mem_filter]
  · intro l
    simp [OConfig.get_other_linters, List.mem_filter]

/-- Claim C8: a formatter with no `check_command` makes `run_check`
short-circuit to a success with a warning log, and the installer is never
invoked for that tool (no install event in the trace). -/
theorem claimC8_check_short_circuit (env : SpecEnv) (f : SpecFormatter)
    (h : f.check_command = none) :
    (SpecFormatter.run_check env f).ok = true
    ∧ CheckEvent.installed ∉ (SpecFormatter.run_check env f).events
    ∧ CheckEvent.warnedMissingCheck ∈ (SpecFormatter.run_check env f).events
    := by
  simp [SpecFormatter.run_check, h]

/-- Witness for C8: a concrete formatter without `check_command`, in an
environment where every install fails — the check still succeeds and no
install is attempted. -/
theorem claimC8_witness :
    (SpecFormatter.run_check specEnvC8 specFmtC8).ok = true
    ∧ CheckEvent.installed ∉ (SpecFormatter.run_check specEnvC8 specFmtC8).events
    ∧ CheckEvent.warnedMissingCheck
        ∈ (SpecFormatter.run_check specEnvC8 specFmtC8).events :=
  claimC8_check_short_circuit specEnvC8 specFmtC8 rfl

theorem assert_dict_keys_error_of_bad (dk keys : List String) (k : String)
    (hk : k ∈ dk) (hbad : k ∉ keys) :
    ∃ e, assert_dict_keys dk keys = Except.error e := by
  induction dk generalizing keys with
  | nil => cases hk
  | cons x rest ih =>
    by_cases hx : x ∈ keys
    · have hstep : assert_dict_keys (x :: rest) keys
          = assert_dict_keys rest (keys.erase x) := by
        simp [assert_dict_keys, hx]
      rw [hstep]
      rcases List.mem_cons.mp hk with h | h
      · subst h
        exact absurd hx hbad
      · refine ih (keys.erase x) h ?_
        intro hmem
        exact hbad (List.Sublist.mem hmem (List.erase_sublist x keys))
    · refine ⟨x, ?_⟩
      simp [assert_dict_keys, hx]

theorem check_entries_error (es : List (List String)) (e : List String)
    (he : e ∈ es) (herr : ∃ k, from_dict_check e = Except.error k) :
    ∃ k, check_entries es = Except.error k := by
  induction es with
  | nil => cases he
  | cons x rest ih =>
    cases hx : from_dict_check x with
    | error k =>
      refine ⟨k, ?_⟩
      simp [check_entries, hx]
    | ok u =>
      have hstep : check_entries (x :: rest) = check_entries rest := by
        simp [check_entries, hx]
      rw [hstep]
      rcases List.mem_cons.mp he with h | h
      · subst h
        obtain ⟨k, hres⟩ := herr
        rw [hres] at hx
        cases hx
      · exact ih h

/-- Claim C9: a tool entry holding a key outside the allowed key set makes
the configuration load (`read_config_file` going through
`FormatterOrLinter.from_dict` and `assert_dict_keys`) end in a `ValueError`
instead of silently ignoring the key; no `Config` is produced, so no tool can
run. -/
theorem claimC9_unknown_key_rejected (topKeys : List String)
    (fmts lnts : List (List String)) (e : List String) (k : String)
    (he : e ∈ fmts ∨ e ∈ lnts) (hk : k ∈ e) (hbad : k ∉ allowedToolKeys) :
    ∃ err, read_config_file topKeys fmts lnts = Except.error err := by
  have herr : ∃ e2, from_dict_check e = Except.error e2 :=
    assert_dict_keys_error_of_bad e allowedToolKeys k hk hbad
  unfold read_config_file
  cases htop : assert_dict_keys topKeys ["formatters", "linters"] with
  | error k2 => exact ⟨k2, rfl⟩
  | ok u =>
    cases hcf : check_entries fmts with
    | error k2 => exact ⟨k2, rfl⟩
    | ok u2 =>
      rcases he with he | he
      · obtain ⟨k2, hbadf⟩ := check_entries_error fmts e he herr
        rw [hbadf] at hcf
        cases hcf
      · obtain ⟨k2, hbadl⟩ := check_entries_error lnts e he herr
        exact ⟨k2, by rw [hbadl]⟩

/-- Witness for C9: a formatter entry with the unknown key `bogus` makes the
configuration load fail. -/
theorem claimC9_witness :
    ∃ err, read_config_file ["formatters", "linters"]
      [["package", "bogus"]] [] = Except.error err :=
  claimC9_unknown_key_rejected ["formatters", "linters"]
    [["package", "bogus"]] [] ["package", "bogus"] "bogus"
    (Or.inl (by simp)) (by simp) (by decide)

end Lemming
